import Mathlib

/-!
Shallow embedding of the ArUco relative-position measuring script
(medir_pos_xyz.py) and of the final gate of the camera-calibration script.
Rational numbers idealize the floating-point arithmetic of the source; the
wall clock is an explicit rational supplied with each frame; external
collaborators (marker detector, pose solver, clock, file system) are inputs.
-/

namespace Medir

/-- Marker id of the fixed base marker (ID_BASE = 0 in the script). -/
def ID_BASE : ℕ := 0

/-- Marker id of the moving effector marker (ID_EFETUADOR = 1). -/
def ID_EFETUADOR : ℕ := 1

/-- Physical marker edge length in meters (TAMANHO_MARCADOR = 0.032); it
parametrizes the external pose solve only and is unused downstream. -/
def TAMANHO_MARCADOR : ℚ := 4/125

/-- Calibration offset for the x axis (OFFSET_X = -11.5). -/
def OFFSET_X : ℚ := -23/2

/-- Calibration offset for the y axis (OFFSET_Y = 11.5). -/
def OFFSET_Y : ℚ := 23/2

/-- Calibration offset for the z axis (OFFSET_Z = -5.2). -/
def OFFSET_Z : ℚ := -26/5

/-- Scale with sign flip applied to the y axis (MULT_Y = -100.0). -/
def MULT_Y : ℚ := -100

/-- Jump threshold in centimeters (LIMITE_SALTO = 20.0). -/
def LIMITE_SALTO : ℚ := 20

/-- Logging cadence in seconds (INTERVALO_GRAVACAO = 1.0). -/
def INTERVALO_GRAVACAO : ℚ := 1

/-- One 3D vector with rational coordinates. -/
structure Vec3 where
  x : ℚ
  y : ℚ
  z : ℚ
deriving DecidableEq

/-- Componentwise difference, embedding numpy vector subtraction. -/
def Vec3.sub (a b : Vec3) : Vec3 := ⟨a.x - b.x, a.y - b.y, a.z - b.z⟩

/-- Dot product of two vectors. -/
def Vec3.dot (a b : Vec3) : ℚ := a.x * b.x + a.y * b.y + a.z * b.z

/-- A 3 by 3 matrix given by its rows. -/
structure Mat3 where
  row0 : Vec3
  row1 : Vec3
  row2 : Vec3
deriving DecidableEq

/-- Matrix transpose. -/
def Mat3.transpose (m : Mat3) : Mat3 :=
  ⟨⟨m.row0.x, m.row1.x, m.row2.x⟩,
   ⟨m.row0.y, m.row1.y, m.row2.y⟩,
   ⟨m.row0.z, m.row1.z, m.row2.z⟩⟩

/-- Matrix-vector product, embedding the numpy matmul in the script. -/
def Mat3.mulVec (m : Mat3) (v : Vec3) : Vec3 :=
  ⟨m.row0.dot v, m.row1.dot v, m.row2.dot v⟩

/-- Output of the external cv2.solvePnP call for one marker, with the
Rodrigues conversion of the rotation vector already applied: a success
flag, a rotation matrix and a translation vector. The script receives all
three components per call. -/
structure SolveResult where
  success : Bool
  R : Mat3
  t : Vec3
deriving DecidableEq

/-- Embedding of get_pose: the script unpacks the solvePnP triple as
underscore, rvec, tvec, so the success flag is dropped and the rotation and
translation are returned unconditionally. -/
def get_pose (s : SolveResult) : Mat3 × Vec3 := (s.R, s.t)

/-- Affine calibration map applied to the raw relative position: per-axis
scales 100, MULT_Y, 100 followed by the per-axis offsets. -/
def calibrar (p : Vec3) : Vec3 :=
  ⟨p.x * 100 + OFFSET_X, p.y * MULT_Y + OFFSET_Y, p.z * 100 + OFFSET_Z⟩

/-- The RelativePosition computed for one frame from the two solver
outputs: p_rel = transpose of R_b applied to (t_e - t_b), then the
calibration map. Matches lines 83 to 89 of the script, where only the base
rotation is converted with Rodrigues and the effector rotation is unused. -/
def framePos (b e : SolveResult) : Vec3 :=
  let pb := get_pose b
  let pe := get_pose e
  calibrar (Mat3.mulVec pb.1.transpose (Vec3.sub pe.2 pb.2))

/-- Squared Euclidean distance between two positions. -/
def distSq (p q : Vec3) : ℚ :=
  (p.x - q.x)^2 + (p.y - q.y)^2 + (p.z - q.z)^2

/-- Euclidean distance between two positions, as a real number. -/
noncomputable def euclDist (p q : Vec3) : ℝ :=
  Real.sqrt ((distSq p q : ℚ) : ℝ)

/-- Embedding of the outlier check: validar_frame stays true unless a last
accepted position exists and the jump distance strictly exceeds
LIMITE_SALTO. The script compares the Euclidean norm with LIMITE_SALTO;
both sides are nonnegative, so the comparison is taken on squares to stay
inside the rationals. -/
def validar_frame (ultima : Option Vec3) (pos : Vec3) : Bool :=
  match ultima with
  | none => true
  | some u => decide (distSq pos u ≤ LIMITE_SALTO ^ 2)

/-- Embedding of deque(maxlen = 10).append: the list holds the window
oldest first; when the window already has 10 entries the oldest is evicted
before the new value is appended. -/
def dequePush (buf : List ℚ) (v : ℚ) : List ℚ :=
  if buf.length < 10 then buf ++ [v] else buf.tail ++ [v]

/-- Arithmetic mean of a list, embedding np.mean on a window; the script
only evaluates it on nonempty windows. -/
def mean (l : List ℚ) : ℚ := l.sum / l.length

/-- The last min(n, length) elements of a list. -/
def lastN (n : ℕ) (l : List ℚ) : List ℚ := l.drop (l.length - n)

/-- Nearest integer with ties to even, embedding the rounding rule of the
builtin round in the script (idealized to exact decimal arithmetic). -/
def roundHalfEven (q : ℚ) : ℤ :=
  if q - ⌊q⌋ < 1/2 then ⌊q⌋
  else if (1 : ℚ)/2 < q - ⌊q⌋ then ⌊q⌋ + 1
  else if ⌊q⌋ % 2 = 0 then ⌊q⌋ else ⌊q⌋ + 1

/-- Rounding to 2 decimal places, embedding round(v, 2). -/
def round2 (q : ℚ) : ℚ := (roundHalfEven (q * 100) : ℚ) / 100

/-- One data row of the CSV log: timestamp, the counter behind the P_n
label, and the three rounded smoothed coordinates. -/
structure LogRow where
  timestamp : ℚ
  label : ℕ
  x : ℚ
  y : ℚ
  z : ℚ
deriving DecidableEq

/-- The mutable process state of the main loop: the three smoothing
deques, the last accepted position, the next scheduled sample time and the
sample counter. -/
structure FilterState where
  buffer_x : List ℚ
  buffer_y : List ℚ
  buffer_z : List ℚ
  ultima_posicao_valida : Option Vec3
  proximo_tempo_gravacao : ℚ
  contador_pontos : ℕ
deriving DecidableEq

/-- One captured frame, abstracted at the detector interface: the list of
detected markers (id paired with the solver output for its corners) and
the wall-clock values read during the iteration. tChk is the time.time()
read compared with the schedule (also standing for the row timestamp) and
tAdv the slightly later time.time() read used to advance the schedule. -/
structure Frame where
  dets : List (ℕ × SolveResult)
  tChk : ℚ
  tAdv : ℚ
deriving DecidableEq

/-- Lookup of a marker id in the detection list, embedding
ids_l.index(id): the first detection with the given id, if any. -/
def lookup (dets : List (ℕ × SolveResult)) (i : ℕ) : Option SolveResult :=
  (dets.find? (fun d => d.1 == i)).map (fun d => d.2)

/-- The state at loop entry: empty windows, no accepted position yet,
schedule at process start time t0, counter at 1. -/
def initState (t0 : ℚ) : FilterState :=
  { buffer_x := [], buffer_y := [], buffer_z := [],
    ultima_posicao_valida := none,
    proximo_tempo_gravacao := t0,
    contador_pontos := 1 }

/-- One iteration of the main loop body on one frame, returning the
updated state and log. The frame is processed only when both marker ids
are found; the computed position passes the outlier check or the whole
iteration leaves state and log untouched; an accepted position is pushed
on the three windows and, when the check time has reached the schedule,
one row of rounded window means is appended and the schedule and counter
advance. -/
def step (st : FilterState) (log : List LogRow) (fr : Frame) :
    FilterState × List LogRow :=
  match lookup fr.dets ID_BASE, lookup fr.dets ID_EFETUADOR with
  | some b, some e =>
    let pos := framePos b e
    if validar_frame st.ultima_posicao_valida pos then
      let bufX := dequePush st.buffer_x pos.x
      let bufY := dequePush st.buffer_y pos.y
      let bufZ := dequePush st.buffer_z pos.z
      if st.proximo_tempo_gravacao ≤ fr.tChk then
        ({ buffer_x := bufX, buffer_y := bufY, buffer_z := bufZ,
           ultima_posicao_valida := some pos,
           proximo_tempo_gravacao := fr.tAdv + INTERVALO_GRAVACAO,
           contador_pontos := st.contador_pontos + 1 },
         log ++ [{ timestamp := fr.tChk, label := st.contador_pontos,
                   x := round2 (mean bufX), y := round2 (mean bufY),
                   z := round2 (mean bufZ) }])
      else
        ({ buffer_x := bufX, buffer_y := bufY, buffer_z := bufZ,
           ultima_posicao_valida := some pos,
           proximo_tempo_gravacao := st.proximo_tempo_gravacao,
           contador_pontos := st.contador_pontos }, log)
    else (st, log)
  | _, _ => (st, log)

/-- The main loop from a given state and log over a finite frame stream. -/
def runFrom (st : FilterState) (log : List LogRow) :
    List Frame → FilterState × List LogRow
  | [] => (st, log)
  | fr :: rest => runFrom (step st log fr).1 (step st log fr).2 rest

/-- A whole run: the loop from the initial state over the frame stream. -/
def run (t0 : ℚ) (frames : List Frame) : FilterState × List LogRow :=
  runFrom (initState t0) [] frames

/-- The sequence of positions the outlier filter accepts along a frame
stream, starting from a given last-accepted value. Acceptance depends only
on the last accepted position, so this is definable without the rest of
the state. -/
def acceptedAux (ultima : Option Vec3) : List Frame → List Vec3
  | [] => []
  | fr :: rest =>
    match lookup fr.dets ID_BASE, lookup fr.dets ID_EFETUADOR with
    | some b, some e =>
      if validar_frame ultima (framePos b e) then
        framePos b e :: acceptedAux (some (framePos b e)) rest
      else acceptedAux ultima rest
    | _, _ => acceptedAux ultima rest

/-- Size of the log file right after the append-mode open: opening with
mode a creates a missing file empty, an existing file keeps its size. -/
def startSize (prevExists : Bool) (prevSize : ℕ) : ℕ :=
  if prevExists then prevSize else 0

/-- Whether the startup code writes the header row: the script tests
os.stat(file).st_size == 0 after the append-mode open. -/
def writesHeader (prevExists : Bool) (prevSize : ℕ) : Bool :=
  startSize prevExists prevSize == 0

/-- Final gate of the calibration script: the calibration solve runs and
the camera file is written only when capturas_salvas > 10. -/
def calibration_saves (capturas_salvas : ℕ) : Bool :=
  decide (10 < capturas_salvas)

/-! Concrete inputs used to instantiate the theorems below. -/

/-- The identity rotation matrix. -/
def idMat : Mat3 := ⟨⟨1, 0, 0⟩, ⟨0, 1, 0⟩, ⟨0, 0, 1⟩⟩

/-- A base-marker solve at the camera origin with identity rotation. -/
def exBase : SolveResult := ⟨true, idMat, ⟨0, 0, 0⟩⟩

/-- An effector solve coinciding with the base marker. -/
def exEff0 : SolveResult := ⟨true, idMat, ⟨0, 0, 0⟩⟩

/-- An effector solve one meter away from the base along x, so the mapped
position jumps 100 cm from the coincident one. -/
def exEffFar : SolveResult := ⟨true, idMat, ⟨1, 0, 0⟩⟩

/-- A base-marker solve whose solver reported failure (success = false). -/
def exBaseFail : SolveResult := ⟨false, idMat, ⟨0, 0, 0⟩⟩

/-- A frame with both markers detected and coinciding, at time 0. -/
def exFrameCoincide : Frame := ⟨[(0, exBase), (1, exEff0)], 0, 0⟩

/-- A frame with the effector far from the base, at time 1. -/
def exFrameJump : Frame := ⟨[(0, exBase), (1, exEffFar)], 1, 1⟩

/-- A frame in which no marker at all was detected. -/
def exFrameNoMarkers : Frame := ⟨[], 0, 0⟩

/-- A frame whose base-marker solve reported failure, at time 0. -/
def exFrameFail : Frame := ⟨[(0, exBaseFail), (1, exEff0)], 0, 0⟩

/-- A filter state after one accepted and logged coincident sample, with
the next sample scheduled at time 10. -/
def exStAccepted : FilterState :=
  ⟨[-23/2], [23/2], [-26/5], some ⟨-23/2, 23/2, -26/5⟩, 10, 2⟩

/-! Helper lemmas: case equations for one loop iteration. -/

theorem step_no_marker (st : FilterState) (log : List LogRow) (fr : Frame)
    (h : lookup fr.dets ID_BASE = none ∨ lookup fr.dets ID_EFETUADOR = none) :
    step st log fr = (st, log) := by
  unfold step
  rcases h with h | h
  · rw [h]
  · rw [h]
    rcases lookup fr.dets ID_BASE with _ | b <;> rfl

theorem step_rejected (st : FilterState) (log : List LogRow) (fr : Frame)
    (b e : SolveResult)
    (hb : lookup fr.dets ID_BASE = some b) (he : lookup fr.dets ID_EFETUADOR = some e)
    (hv : validar_frame st.ultima_posicao_valida (framePos b e) = false) :
    step st log fr = (st, log) := by
  unfold step
  rw [hb, he]
  simp [hv]

theorem step_accepted_log (st : FilterState) (log : List LogRow) (fr : Frame)
    (b e : SolveResult)
    (hb : lookup fr.dets ID_BASE = some b) (he : lookup fr.dets ID_EFETUADOR = some e)
    (hv : validar_frame st.ultima_posicao_valida (framePos b e) = true)
    (ht : st.proximo_tempo_gravacao ≤ fr.tChk) :
    step st log fr =
      ({ buffer_x := dequePush st.buffer_x (framePos b e).x,
         buffer_y := dequePush st.buffer_y (framePos b e).y,
         buffer_z := dequePush st.buffer_z (framePos b e).z,
         ultima_posicao_valida := some (framePos b e),
         proximo_tempo_gravacao := fr.tAdv + INTERVALO_GRAVACAO,
         contador_pontos := st.contador_pontos + 1 },
       log ++ [{ timestamp := fr.tChk, label := st.contador_pontos,
                 x := round2 (mean (dequePush st.buffer_x (framePos b e).x)),
                 y := round2 (mean (dequePush st.buffer_y (framePos b e).y)),
                 z := round2 (mean (dequePush st.buffer_z (framePos b e).z)) }]) := by
  unfold step
  rw [hb, he]
  simp [hv, ht]

theorem step_accepted_nolog (st : FilterState) (log : List LogRow) (fr : Frame)
    (b e : SolveResult)
    (hb : lookup fr.dets ID_BASE = some b) (he : lookup fr.dets ID_EFETUADOR = some e)
    (hv : validar_frame st.ultima_posicao_valida (framePos b e) = true)
    (ht : ¬ st.proximo_tempo_gravacao ≤ fr.tChk) :
    step st log fr =
      ({ buffer_x := dequePush st.buffer_x (framePos b e).x,
         buffer_y := dequePush st.buffer_y (framePos b e).y,
         buffer_z := dequePush st.buffer_z (framePos b e).z,
         ultima_posicao_valida := some (framePos b e),
         proximo_tempo_gravacao := st.proximo_tempo_gravacao,
         contador_pontos := st.contador_pontos }, log) := by
  unfold step
  rw [hb, he]
  simp [hv, ht]

theorem acceptedAux_cons_skip (u : Option Vec3) (fr : Frame) (rest : List Frame)
    (h : lookup fr.dets ID_BASE = none ∨ lookup fr.dets ID_EFETUADOR = none) :
    acceptedAux u (fr :: rest) = acceptedAux u rest := by
  conv_lhs => unfold acceptedAux
  rcases h with h | h
  · rw [h]
  · rw [h]
    rcases lookup fr.dets ID_BASE with _ | b <;> rfl

theorem acceptedAux_cons_rej (u : Option Vec3) (fr : Frame) (rest : List Frame)
    (b e : SolveResult)
    (hb : lookup fr.dets ID_BASE = some b) (he : lookup fr.dets ID_EFETUADOR = some e)
    (hv : validar_frame u (framePos b e) = false) :
    acceptedAux u (fr :: rest) = acceptedAux u rest := by
  conv_lhs => unfold acceptedAux
  rw [hb, he]
  simp [hv]

theorem acceptedAux_cons_acc (u : Option Vec3) (fr : Frame) (rest : List Frame)
    (b e : SolveResult)
    (hb : lookup fr.dets ID_BASE = some b) (he : lookup fr.dets ID_EFETUADOR = some e)
    (hv : validar_frame u (framePos b e) = true) :
    acceptedAux u (fr :: rest)
      = framePos b e :: acceptedAux (some (framePos b e)) rest := by
  conv_lhs => unfold acceptedAux
  rw [hb, he]
  simp [hv]

theorem runFrom_cons (st : FilterState) (log : List LogRow) (fr : Frame)
    (rest : List Frame) :
    runFrom st log (fr :: rest)
      = runFrom (step st log fr).1 (step st log fr).2 rest := rfl

/-! Helper lemmas: the smoothing windows along a run. -/

theorem lastN_length (n : ℕ) (l : List ℚ) : (lastN n l).length = min n l.length := by
  simp only [lastN, List.length_drop]
  omega

theorem lastN_of_le (n : ℕ) (l : List ℚ) (h : l.length ≤ n) : lastN n l = l := by
  simp [lastN, Nat.sub_eq_zero_of_le h]

theorem lastN_append_lastN (n : ℕ) (l s : List ℚ) :
    lastN n (lastN n l ++ s) = lastN n (l ++ s) := by
  simp only [lastN, List.length_append, List.length_drop,
    List.drop_append_eq_append_drop, List.drop_drop]
  congr 1
  · congr 1
    omega
  · congr 1
    omega

theorem dequePush_eq_lastN (b : List ℚ) (v : ℚ) (h : b.length ≤ 10) :
    dequePush b v = lastN 10 (b ++ [v]) := by
  unfold dequePush
  by_cases hlt : b.length < 10
  · rw [if_pos hlt, lastN_of_le]
    simp
    omega
  · rw [if_neg hlt]
    have hb : b.length = 10 := by omega
    simp only [lastN, List.length_append, List.length_singleton, hb,
      List.drop_append_eq_append_drop]
    rw [← List.drop_one]
    congr 1

theorem dequePush_length_le (b : List ℚ) (v : ℚ) (h : b.length ≤ 10) :
    (dequePush b v).length ≤ 10 := by
  unfold dequePush
  by_cases hlt : b.length < 10
  · simp [hlt]
    omega
  · have hb : b.length = 10 := by omega
    simp [hlt, List.length_tail, hb]

theorem foldl_dequePush (vs : List ℚ) : ∀ (b : List ℚ), b.length ≤ 10 →
    List.foldl dequePush b vs = lastN 10 (b ++ vs) := by
  induction vs with
  | nil => intro b h; simpa using (lastN_of_le 10 b h).symm
  | cons v vs ih =>
    intro b h
    rw [List.foldl_cons, ih (dequePush b v) (dequePush_length_le b v h),
      dequePush_eq_lastN b v h, lastN_append_lastN]
    simp

theorem runFrom_buffers (frames : List Frame) :
    ∀ (st : FilterState) (log : List LogRow),
    ((runFrom st log frames).1.buffer_x
        = List.foldl dequePush st.buffer_x
            ((acceptedAux st.ultima_posicao_valida frames).map Vec3.x))
    ∧ ((runFrom st log frames).1.buffer_y
        = List.foldl dequePush st.buffer_y
            ((acceptedAux st.ultima_posicao_valida frames).map Vec3.y))
    ∧ ((runFrom st log frames).1.buffer_z
        = List.foldl dequePush st.buffer_z
            ((acceptedAux st.ultima_posicao_valida frames).map Vec3.z)) := by
  induction frames with
  | nil => intro st log; exact ⟨rfl, rfl, rfl⟩
  | cons fr rest ih =>
    intro st log
    rcases hb : lookup fr.dets ID_BASE with _ | b
    · rw [runFrom_cons, step_no_marker st log fr (Or.inl hb),
        acceptedAux_cons_skip st.ultima_posicao_valida fr rest (Or.inl hb)]
      exact ih st log
    · rcases he : lookup fr.dets ID_EFETUADOR with _ | e
      · rw [runFrom_cons, step_no_marker st log fr (Or.inr he),
          acceptedAux_cons_skip st.ultima_posicao_valida fr rest (Or.inr he)]
        exact ih st log
      · rcases hv : validar_frame st.ultima_posicao_valida (framePos b e) with _ | _
        · rw [runFrom_cons, step_rejected st log fr b e hb he hv,
            acceptedAux_cons_rej st.ultima_posicao_valida fr rest b e hb he hv]
          exact ih st log
        · rw [runFrom_cons,
            acceptedAux_cons_acc st.ultima_posicao_valida fr rest b e hb he hv]
          by_cases ht : st.proximo_tempo_gravacao ≤ fr.tChk
          · rw [step_accepted_log st log fr b e hb he hv ht]
            simpa using ih _ _
          · rw [step_accepted_nolog st log fr b e hb he hv ht]
            simpa using ih _ _

/-! Helper lemmas: the sample counter and the logged labels along a run. -/

theorem runFrom_labels (frames : List Frame) :
    ∀ (st : FilterState) (log : List LogRow), ∃ n : ℕ,
    ((runFrom st log frames).2).map LogRow.label
        = log.map LogRow.label ++ List.range' st.contador_pontos n
    ∧ (runFrom st log frames).1.contador_pontos = st.contador_pontos + n := by
  induction frames with
  | nil => intro st log; exact ⟨0, by simp [runFrom], rfl⟩
  | cons fr rest ih =>
    intro st log
    rcases hb : lookup fr.dets ID_BASE with _ | b
    · rw [runFrom_cons, step_no_marker st log fr (Or.inl hb)]
      exact ih st log
    · rcases he : lookup fr.dets ID_EFETUADOR with _ | e
      · rw [runFrom_cons, step_no_marker st log fr (Or.inr he)]
        exact ih st log
      · rcases hv : validar_frame st.ultima_posicao_valida (framePos b e) with _ | _
        · rw [runFrom_cons, step_rejected st log fr b e hb he hv]
          exact ih st log
        · by_cases ht : st.proximo_tempo_gravacao ≤ fr.tChk
          · rw [runFrom_cons, step_accepted_log st log fr b e hb he hv ht]
            obtain ⟨n, h1, h2⟩ := ih _ _
            refine ⟨n + 1, ?_, ?_⟩
            · rw [h1]
              simp only [List.map_append, List.map_cons, List.map_nil]
              rw [List.append_assoc]
              congr 1
            · rw [h2]
              show st.contador_pontos + 1 + n = st.contador_pontos + (n + 1)
              omega
          · rw [runFrom_cons, step_accepted_nolog st log fr b e hb he hv ht]
            exact ih _ _

/-! Helper lemmas: runs with no accepted frame. -/

theorem runFrom_no_accept (frames : List Frame) :
    ∀ (st : FilterState) (log : List LogRow),
    acceptedAux st.ultima_posicao_valida frames = [] →
    runFrom st log frames = (st, log) := by
  induction frames with
  | nil => intro st log _; rfl
  | cons fr rest ih =>
    intro st log hacc
    rcases hb : lookup fr.dets ID_BASE with _ | b
    · rw [runFrom_cons, step_no_marker st log fr (Or.inl hb)]
      exact ih st log (by rwa [acceptedAux_cons_skip _ _ _ (Or.inl hb)] at hacc)
    · rcases he : lookup fr.dets ID_EFETUADOR with _ | e
      · rw [runFrom_cons, step_no_marker st log fr (Or.inr he)]
        exact ih st log (by rwa [acceptedAux_cons_skip _ _ _ (Or.inr he)] at hacc)
      · rcases hv : validar_frame st.ultima_posicao_valida (framePos b e) with _ | _
        · rw [runFrom_cons, step_rejected st log fr b e hb he hv]
          exact ih st log (by rwa [acceptedAux_cons_rej _ _ _ b e hb he hv] at hacc)
        · exfalso
          rw [acceptedAux_cons_acc _ _ _ b e hb he hv] at hacc
          exact List.cons_ne_nil _ _ hacc

/-! Helper lemmas: consecutive accepted positions stay within the jump bound. -/

theorem validar_some_iff (u pos : Vec3) :
    validar_frame (some u) pos = true ↔ distSq pos u ≤ LIMITE_SALTO ^ 2 := by
  simp [validar_frame]

theorem accepted_chain (frames : List Frame) :
    ∀ u : Vec3,
    List.Chain (fun p q : Vec3 => distSq q p ≤ LIMITE_SALTO ^ 2) u
      (acceptedAux (some u) frames) := by
  induction frames with
  | nil => intro u; exact List.Chain.nil
  | cons fr rest ih =>
    intro u
    rcases hb : lookup fr.dets ID_BASE with _ | b
    · rw [acceptedAux_cons_skip _ _ _ (Or.inl hb)]
      exact ih u
    · rcases he : lookup fr.dets ID_EFETUADOR with _ | e
      · rw [acceptedAux_cons_skip _ _ _ (Or.inr he)]
        exact ih u
      · rcases hv : validar_frame (some u) (framePos b e) with _ | _
        · rw [acceptedAux_cons_rej _ _ _ b e hb he hv]
          exact ih u
        · rw [acceptedAux_cons_acc _ _ _ b e hb he hv]
          exact List.Chain.cons ((validar_some_iff u (framePos b e)).1 hv) (ih _)

theorem accepted_chain_from_none (frames : List Frame) :
    List.Chain' (fun p q : Vec3 => distSq q p ≤ LIMITE_SALTO ^ 2)
      (acceptedAux none frames) := by
  induction frames with
  | nil => exact List.chain'_nil
  | cons fr rest ih =>
    rcases hb : lookup fr.dets ID_BASE with _ | b
    · rw [acceptedAux_cons_skip _ _ _ (Or.inl hb)]
      exact ih
    · rcases he : lookup fr.dets ID_EFETUADOR with _ | e
      · rw [acceptedAux_cons_skip _ _ _ (Or.inr he)]
        exact ih
      · rw [acceptedAux_cons_acc none fr rest b e hb he rfl]
        exact accepted_chain rest (framePos b e)

/-! Helper lemmas: from squared distances to Euclidean distances. -/

theorem distSq_nonneg (p q : Vec3) : 0 ≤ distSq p q := by
  have hx := sq_nonneg (p.x - q.x)
  have hy := sq_nonneg (p.y - q.y)
  have hz := sq_nonneg (p.z - q.z)
  unfold distSq
  linarith

theorem euclDist_le_iff (p q : Vec3) :
    euclDist p q ≤ ((LIMITE_SALTO : ℚ) : ℝ) ↔ distSq p q ≤ LIMITE_SALTO ^ 2 := by
  unfold euclDist
  rw [Real.sqrt_le_left (by norm_num [LIMITE_SALTO])]
  constructor
  · intro h
    exact_mod_cast h
  · intro h
    exact_mod_cast h

/-! Helper lemmas: shape of the rows a run appends to the log. -/

theorem runFrom_rows (frames : List Frame) :
    ∀ (st : FilterState) (log : List LogRow) (row : LogRow),
    row ∈ (runFrom st log frames).2 →
    row ∈ log ∨ ∃ qx qy qz : ℚ,
      row.x = round2 qx ∧ row.y = round2 qy ∧ row.z = round2 qz := by
  induction frames with
  | nil => intro st log row h; exact Or.inl h
  | cons fr rest ih =>
    intro st log row h
    rcases hb : lookup fr.dets ID_BASE with _ | b
    · rw [runFrom_cons, step_no_marker st log fr (Or.inl hb)] at h
      exact ih st log row h
    · rcases he : lookup fr.dets ID_EFETUADOR with _ | e
      · rw [runFrom_cons, step_no_marker st log fr (Or.inr he)] at h
        exact ih st log row h
      · rcases hv : validar_frame st.ultima_posicao_valida (framePos b e) with _ | _
        · rw [runFrom_cons, step_rejected st log fr b e hb he hv] at h
          exact ih st log row h
        · by_cases ht : st.proximo_tempo_gravacao ≤ fr.tChk
          · rw [runFrom_cons, step_accepted_log st log fr b e hb he hv ht] at h
            rcases ih _ _ _ h with hmem | hshape
            · rcases List.mem_append.1 hmem with hold | hnew
              · exact Or.inl hold
              · refine Or.inr ⟨mean (dequePush st.buffer_x (framePos b e).x),
                  mean (dequePush st.buffer_y (framePos b e).y),
                  mean (dequePush st.buffer_z (framePos b e).z), ?_, ?_, ?_⟩ <;>
                  rw [List.mem_singleton.1 hnew]
            · exact Or.inr hshape
          · rw [runFrom_cons, step_accepted_nolog st log fr b e hb he hv ht] at h
            exact ih _ _ _ h

/-- C1: along any run, each smoothing window holds exactly the last
min(10, count) accepted raw values of its axis (FIFO with capacity 10,
oldest evicted first), and the filtered output of each axis, the mean of
the window, equals the arithmetic mean of those last min(10, count)
accepted values. Stated for the x window mean; the window equalities are
given for all three axes, so the same mean identity follows on each. -/
theorem smoothing_mean_lastN (t0 : ℚ) (frames : List Frame) :
    ((run t0 frames).1.buffer_x = lastN 10 ((acceptedAux none frames).map Vec3.x))
    ∧ ((run t0 frames).1.buffer_y = lastN 10 ((acceptedAux none frames).map Vec3.y))
    ∧ ((run t0 frames).1.buffer_z = lastN 10 ((acceptedAux none frames).map Vec3.z))
    ∧ ((run t0 frames).1.buffer_x.length = min 10 (acceptedAux none frames).length)
    ∧ (mean ((run t0 frames).1.buffer_x)
        = (lastN 10 ((acceptedAux none frames).map Vec3.x)).sum
            / (min 10 (acceptedAux none frames).length : ℕ)) := by
  obtain ⟨hx, hy, hz⟩ := runFrom_buffers frames (initState t0) []
  have hbx : (initState t0).buffer_x = [] := rfl
  have hby : (initState t0).buffer_y = [] := rfl
  have hbz : (initState t0).buffer_z = [] := rfl
  have hu : (initState t0).ultima_posicao_valida = none := rfl
  rw [hbx, hu] at hx
  rw [hby, hu] at hy
  rw [hbz, hu] at hz
  have ex : (run t0 frames).1.buffer_x
      = lastN 10 ((acceptedAux none frames).map Vec3.x) := by
    rw [run, hx, foldl_dequePush _ [] (by simp)]
    rfl
  have ey : (run t0 frames).1.buffer_y
      = lastN 10 ((acceptedAux none frames).map Vec3.y) := by
    rw [run, hy, foldl_dequePush _ [] (by simp)]
    rfl
  have ez : (run t0 frames).1.buffer_z
      = lastN 10 ((acceptedAux none frames).map Vec3.z) := by
    rw [run, hz, foldl_dequePush _ [] (by simp)]
    rfl
  refine ⟨ex, ey, ez, ?_, ?_⟩
  · rw [ex, lastN_length, List.length_map]
  · rw [ex, mean, lastN_length, List.length_map]

/-- C2: a frame whose computed RelativePosition the outlier filter
rejects leaves the whole FilterState untouched (last accepted position,
the three windows, the schedule, the counter) and appends nothing to the
log. -/
theorem rejected_frame_state_unchanged (st : FilterState) (log : List LogRow)
    (fr : Frame) (b e : SolveResult)
    (hb : lookup fr.dets ID_BASE = some b)
    (he : lookup fr.dets ID_EFETUADOR = some e)
    (hv : validar_frame st.ultima_posicao_valida (framePos b e) = false) :
    step st log fr = (st, log) :=
  step_rejected st log fr b e hb he hv

/-- Witness for C2: a concrete frame whose mapped position sits 100 cm
from the last accepted one is rejected and changes nothing. -/
theorem rejected_frame_state_unchanged_witness :
    lookup exFrameJump.dets ID_BASE = some exBase
    ∧ lookup exFrameJump.dets ID_EFETUADOR = some exEffFar
    ∧ validar_frame exStAccepted.ultima_posicao_valida
        (framePos exBase exEffFar) = false
    ∧ step exStAccepted [] exFrameJump = (exStAccepted, []) :=
  ⟨rfl, rfl,
    by norm_num [validar_frame, distSq, framePos, get_pose, calibrar,
      Mat3.mulVec, Mat3.transpose, Vec3.dot, Vec3.sub, exBase, exEffFar,
      exStAccepted, idMat, OFFSET_X, OFFSET_Y, OFFSET_Z, MULT_Y, LIMITE_SALTO],
    rejected_frame_state_unchanged exStAccepted [] exFrameJump exBase exEffFar
      rfl rfl
      (by norm_num [validar_frame, distSq, framePos, get_pose, calibrar,
        Mat3.mulVec, Mat3.transpose, Vec3.dot, Vec3.sub, exBase, exEffFar,
        exStAccepted, idMat, OFFSET_X, OFFSET_Y, OFFSET_Z, MULT_Y,
        LIMITE_SALTO])⟩

/-- C3: while no position has been accepted yet, the outlier check passes
for every position, and the first valid frame of a run installs its
position as the last accepted one regardless of magnitude. -/
theorem first_frame_always_accepted :
    (∀ pos : Vec3, validar_frame none pos = true)
    ∧ (∀ (st : FilterState) (log : List LogRow) (fr : Frame) (b e : SolveResult),
        lookup fr.dets ID_BASE = some b → lookup fr.dets ID_EFETUADOR = some e →
        st.ultima_posicao_valida = none →
        (step st log fr).1.ultima_posicao_valida = some (framePos b e)) := by
  refine ⟨fun pos => rfl, fun st log fr b e hb he hnone => ?_⟩
  have hv : validar_frame st.ultima_posicao_valida (framePos b e) = true := by
    rw [hnone]
    rfl
  by_cases ht : st.proximo_tempo_gravacao ≤ fr.tChk
  · rw [step_accepted_log st log fr b e hb he hv ht]
  · rw [step_accepted_nolog st log fr b e hb he hv ht]

/-- Witness for C3: the very first valid frame of a run is accepted. -/
theorem first_frame_always_accepted_witness :
    (step (initState 0) [] exFrameCoincide).1.ultima_posicao_valida
      = some ⟨-23/2, 23/2, -26/5⟩ := by
  have h := first_frame_always_accepted.2 (initState 0) [] exFrameCoincide
    exBase exEff0 rfl rfl rfl
  rw [h]
  norm_num [framePos, get_pose, calibrar, Mat3.mulVec, Mat3.transpose,
    Vec3.dot, Vec3.sub, exBase, exEff0, idMat, OFFSET_X, OFFSET_Y, OFFSET_Z,
    MULT_Y]

/-- C4: when a last accepted position exists, a new position is accepted
exactly when its Euclidean distance to it is at most the jump threshold of
20 cm; consequently any two consecutive accepted positions of a run lie
within 20 cm of each other. -/
theorem accept_iff_dist_le :
    (∀ u pos : Vec3,
      validar_frame (some u) pos = true
        ↔ euclDist pos u ≤ ((LIMITE_SALTO : ℚ) : ℝ))
    ∧ (∀ frames : List Frame,
        List.Chain' (fun p q : Vec3 => euclDist q p ≤ ((LIMITE_SALTO : ℚ) : ℝ))
          (acceptedAux none frames)) := by
  constructor
  · intro u pos
    rw [validar_some_iff, euclDist_le_iff]
  · intro frames
    exact (accepted_chain_from_none frames).imp
      (fun p q h => (euclDist_le_iff q p).2 h)

/-- C5: the labels of the rows a run logs are exactly 1, 2, ..., k in
order: the counter starts at 1, increases by exactly 1 per logged sample,
and no two rows share a label. -/
theorem logged_labels_range (t0 : ℚ) (frames : List Frame) :
    ((run t0 frames).2).map LogRow.label
        = List.range' 1 ((run t0 frames).2.length)
    ∧ (((run t0 frames).2).map LogRow.label).Nodup := by
  obtain ⟨n, h1, h2⟩ := runFrom_labels frames (initState t0) []
  have h1' : ((run t0 frames).2).map LogRow.label = List.range' 1 n := by
    rw [run, h1]
    rfl
  have hn : (run t0 frames).2.length = n := by
    rw [← List.length_map (run t0 frames).2 LogRow.label, h1',
      List.length_range']
  rw [h1', hn]
  exact ⟨rfl, List.nodup_range' 1 n⟩

/-- C6: when base and effector solves coincide (same rotation, same
translation), the relative position before calibration is the zero vector
and the final RelativePosition, after the per-axis scales 100, -100, 100
and the offsets, is exactly (-11.5, 11.5, -5.2). -/
theorem coincident_markers_position (b e : SolveResult)
    (_hR : e.R = b.R) (ht : e.t = b.t) :
    Mat3.mulVec (get_pose b).1.transpose
        (Vec3.sub (get_pose e).2 (get_pose b).2) = ⟨0, 0, 0⟩
    ∧ framePos b e = ⟨-23/2, 23/2, -26/5⟩ := by
  have h0 : Vec3.sub (get_pose e).2 (get_pose b).2 = ⟨0, 0, 0⟩ := by
    simp [get_pose, ht, Vec3.sub]
  have h1 : Mat3.mulVec (get_pose b).1.transpose ⟨0, 0, 0⟩ = ⟨0, 0, 0⟩ := by
    simp [Mat3.mulVec, Vec3.dot, Mat3.transpose]
  refine ⟨by rw [h0, h1], ?_⟩
  show calibrar (Mat3.mulVec (get_pose b).1.transpose
      (Vec3.sub (get_pose e).2 (get_pose b).2)) = ⟨-23/2, 23/2, -26/5⟩
  rw [h0, h1]
  norm_num [calibrar, OFFSET_X, OFFSET_Y, OFFSET_Z, MULT_Y]

/-- Witness for C6: the concrete coincident pair maps to the offsets. -/
theorem coincident_markers_position_witness :
    exEff0.R = exBase.R ∧ exEff0.t = exBase.t
    ∧ framePos exBase exEff0 = ⟨-23/2, 23/2, -26/5⟩ :=
  ⟨rfl, rfl, (coincident_markers_position exBase exEff0 rfl rfl).2⟩

/-- C7 counterexample: a frame whose base-marker pose solve reported
failure (success = false) is not skipped: the script drops the flag in
get_pose, so the frame updates the last accepted position and produces a
logged sample, contradicting the claim that a degenerate solve propagates
no solution and contributes nothing to FilterState or the log. -/
theorem solver_failure_not_skipped_cex :
    exBaseFail.success = false
    ∧ (step (initState 0) [] exFrameFail).1.ultima_posicao_valida
        = some (framePos exBaseFail exEff0)
    ∧ ((step (initState 0) [] exFrameFail).2).length = 1 := by
  have ht : (initState 0).proximo_tempo_gravacao ≤ exFrameFail.tChk :=
    le_refl (0 : ℚ)
  refine ⟨rfl, ?_, ?_⟩
  · rw [step_accepted_log (initState 0) [] exFrameFail exBaseFail exEff0
      rfl rfl rfl ht]
  · rw [step_accepted_log (initState 0) [] exFrameFail exBaseFail exEff0
      rfl rfl rfl ht]
    rfl

/-- C7 amended: get_pose drops the success flag of the pose solve, so a
degenerate solve is not detected: the pipeline treats the returned
rotation and translation like any other, and a frame is skipped exactly
when one of the required marker ids is absent from the detection. -/
theorem get_pose_ignores_success :
    (∀ (s : Bool) (R : Mat3) (t : Vec3), get_pose ⟨s, R, t⟩ = (R, t))
    ∧ (∀ (sb sb' se se' : Bool) (Rb Re : Mat3) (tb te : Vec3),
        framePos ⟨sb, Rb, tb⟩ ⟨se, Re, te⟩ = framePos ⟨sb', Rb, tb⟩ ⟨se', Re, te⟩)
    ∧ (∀ (st : FilterState) (log : List LogRow) (fr : Frame),
        lookup fr.dets ID_BASE = none ∨ lookup fr.dets ID_EFETUADOR = none →
        step st log fr = (st, log)) :=
  ⟨fun _ _ _ => rfl, fun _ _ _ _ _ _ _ _ => rfl, step_no_marker⟩

/-- Witness for C7 amended: the failed solve still yields its pose, and a
frame with no detected markers leaves state and log unchanged. -/
theorem get_pose_ignores_success_witness :
    get_pose exBaseFail = (idMat, ⟨0, 0, 0⟩)
    ∧ step exStAccepted [] exFrameNoMarkers = (exStAccepted, []) :=
  ⟨get_pose_ignores_success.1 false idMat ⟨0, 0, 0⟩,
   get_pose_ignores_success.2.2 exStAccepted [] exFrameNoMarkers (Or.inl rfl)⟩

/-- C8: on a frame with no filtered position (a required marker missing,
or the position rejected) nothing is logged and the schedule is not
advanced; an accepted frame before the scheduled time also logs nothing
and leaves the schedule pending; an accepted frame at or after the
scheduled time logs exactly one sample. -/
theorem unavailable_frame_no_log_no_advance (st : FilterState)
    (log : List LogRow) (fr : Frame) :
    (lookup fr.dets ID_BASE = none ∨ lookup fr.dets ID_EFETUADOR = none →
      step st log fr = (st, log))
    ∧ (∀ b e : SolveResult, lookup fr.dets ID_BASE = some b →
        lookup fr.dets ID_EFETUADOR = some e →
        validar_frame st.ultima_posicao_valida (framePos b e) = false →
        step st log fr = (st, log))
    ∧ (∀ b e : SolveResult, lookup fr.dets ID_BASE = some b →
        lookup fr.dets ID_EFETUADOR = some e →
        validar_frame st.ultima_posicao_valida (framePos b e) = true →
        fr.tChk < st.proximo_tempo_gravacao →
        (step st log fr).2 = log
        ∧ (step st log fr).1.proximo_tempo_gravacao
            = st.proximo_tempo_gravacao)
    ∧ (∀ b e : SolveResult, lookup fr.dets ID_BASE = some b →
        lookup fr.dets ID_EFETUADOR = some e →
        validar_frame st.ultima_posicao_valida (framePos b e) = true →
        st.proximo_tempo_gravacao ≤ fr.tChk →
        (step st log fr).2.length = log.length + 1) := by
  refine ⟨step_no_marker st log fr,
    fun b e hb he hv => step_rejected st log fr b e hb he hv,
    fun b e hb he hv htlt => ?_, fun b e hb he hv ht => ?_⟩
  · rw [step_accepted_nolog st log fr b e hb he hv (not_le.2 htlt)]
    exact ⟨rfl, rfl⟩
  · rw [step_accepted_log st log fr b e hb he hv ht]
    simp

/-- Witness for C8: a markerless frame changes nothing, and a valid frame
arriving before the scheduled time logs nothing and keeps the schedule. -/
theorem unavailable_frame_no_log_no_advance_witness :
    step exStAccepted [] exFrameNoMarkers = (exStAccepted, [])
    ∧ (step exStAccepted [] exFrameCoincide).2 = []
    ∧ (step exStAccepted [] exFrameCoincide).1.proximo_tempo_gravacao = 10 := by
  have h1 := (unavailable_frame_no_log_no_advance exStAccepted []
    exFrameNoMarkers).1 (Or.inl rfl)
  have h3 := (unavailable_frame_no_log_no_advance exStAccepted []
    exFrameCoincide).2.2.1 exBase exEff0 rfl rfl
    (by norm_num [validar_frame, distSq, framePos, get_pose, calibrar,
      Mat3.mulVec, Mat3.transpose, Vec3.dot, Vec3.sub, exBase, exEff0,
      exStAccepted, idMat, OFFSET_X, OFFSET_Y, OFFSET_Z, MULT_Y, LIMITE_SALTO])
    (by norm_num [exFrameCoincide, exStAccepted])
  exact ⟨h1, h3.1, h3.2.trans rfl⟩

/-- A single coincident frame at time 0 produces exactly one logged row,
the rounded offsets labeled 1 with timestamp 0. -/
theorem run_coincide_log :
    (run 0 [exFrameCoincide]).2 = [⟨0, 1, -23/2, 23/2, -26/5⟩] := by
  have hv : validar_frame (initState 0).ultima_posicao_valida
      (framePos exBase exEff0) = true := rfl
  have ht : (initState 0).proximo_tempo_gravacao ≤ exFrameCoincide.tChk :=
    le_refl (0 : ℚ)
  have hs := step_accepted_log (initState 0) [] exFrameCoincide exBase exEff0
    rfl rfl hv ht
  have hrow : (run 0 [exFrameCoincide]).2
      = [{ timestamp := exFrameCoincide.tChk,
           label := (initState 0).contador_pontos,
           x := round2 (mean (dequePush (initState 0).buffer_x
                  (framePos exBase exEff0).x)),
           y := round2 (mean (dequePush (initState 0).buffer_y
                  (framePos exBase exEff0).y)),
           z := round2 (mean (dequePush (initState 0).buffer_z
                  (framePos exBase exEff0).z))  }] := by
    show (step (initState 0) [] exFrameCoincide).2 = _
    rw [hs]
    rfl
  rw [hrow]
  norm_num [framePos, get_pose, calibrar, Mat3.mulVec, Mat3.transpose,
    Vec3.dot, Vec3.sub, exBase, exEff0, idMat, OFFSET_X, OFFSET_Y, OFFSET_Z,
    MULT_Y, dequePush, mean, round2, roundHalfEven, exFrameCoincide,
    initState]

/-- C9 counterexample: with a log file that previously exists but is
empty (prevExists = true, size 0), the startup code appends the header
row again, because the script only tests st_size == 0; this refutes the
claim that the header is written exactly when the file did not previously
exist. -/
theorem header_on_existing_empty_file_cex : writesHeader true 0 = true := rfl

/-- C9 amended: the header row is written exactly when the log file is
empty right after the append-mode open (a nonexistent file is created
empty, so it always receives the header, but so does a preexisting empty
file), and every row a run logs carries x, y, z that are integer
multiples of 1/100, that is, rounded to 2 decimal places. -/
theorem header_iff_empty_rows_rounded :
    (∀ (pe : Bool) (ps : ℕ), writesHeader pe ps = true ↔ startSize pe ps = 0)
    ∧ (∀ ps : ℕ, writesHeader false ps = true)
    ∧ (∀ (t0 : ℚ) (frames : List Frame) (row : LogRow),
        row ∈ (run t0 frames).2 →
        (∃ a : ℤ, row.x = (a : ℚ) / 100) ∧ (∃ b : ℤ, row.y = (b : ℚ) / 100)
        ∧ (∃ c : ℤ, row.z = (c : ℚ) / 100)) := by
  refine ⟨fun pe ps => ?_, fun ps => rfl, fun t0 frames row hrow => ?_⟩
  · simp [writesHeader]
  · rcases runFrom_rows frames (initState t0) [] row hrow with hmem | h
    · exact absurd hmem (List.not_mem_nil row)
    · obtain ⟨qx, qy, qz, hx, hy, hz⟩ := h
      exact ⟨⟨roundHalfEven (qx * 100), hx⟩, ⟨roundHalfEven (qy * 100), hy⟩,
        ⟨roundHalfEven (qz * 100), hz⟩⟩

/-- Witness for C9 amended: instantiated on a missing file, a size-5
existing file, and the one row logged by a single coincident frame. -/
theorem header_iff_empty_rows_rounded_witness :
    (writesHeader true 0 = true ↔ startSize true 0 = 0)
    ∧ writesHeader false 5 = true
    ∧ ((∃ a : ℤ, (⟨0, 1, -23/2, 23/2, -26/5⟩ : LogRow).x = (a : ℚ) / 100)
       ∧ (∃ b : ℤ, (⟨0, 1, -23/2, 23/2, -26/5⟩ : LogRow).y = (b : ℚ) / 100)
       ∧ (∃ c : ℤ, (⟨0, 1, -23/2, 23/2, -26/5⟩ : LogRow).z = (c : ℚ) / 100)) := by
  refine ⟨header_iff_empty_rows_rounded.1 true 0,
    header_iff_empty_rows_rounded.2.1 5,
    header_iff_empty_rows_rounded.2.2 0 [exFrameCoincide] _ ?_⟩
  rw [run_coincide_log]
  exact List.mem_singleton.2 rfl

/-- C10 counterexample: a run in which exactly one valid frame is ever
accepted, fewer than the calibration-style minimum of more than 10 (the
insufficient-data gate evaluates to false at this count), still logs a
sample: the filtering pipeline has no warm-up minimum. -/
theorem single_accepted_frame_logs_cex :
    (acceptedAux none [exFrameCoincide]).length = 1
    ∧ calibration_saves (acceptedAux none [exFrameCoincide]).length = false
    ∧ ((run 0 [exFrameCoincide]).2).length = 1 := by
  have hacc : acceptedAux none [exFrameCoincide] = [framePos exBase exEff0] := by
    rw [acceptedAux_cons_acc none exFrameCoincide [] exBase exEff0 rfl rfl rfl]
    rfl
  refine ⟨?_, ?_, ?_⟩
  · rw [hacc]
    rfl
  · rw [hacc]
    rfl
  · rw [run_coincide_log]
    rfl

/-- C10 amended: a run logs no samples exactly in the degenerate case
that no frame is ever accepted; there is no multi-frame warm-up in the
filtering pipeline. The configured insufficient-data minimum (more than
10 saved captures) belongs to the calibration collaborator, whose gate
indeed refuses any count up to 10. -/
theorem no_accepted_no_log :
    (∀ (t0 : ℚ) (frames : List Frame),
      acceptedAux none frames = [] → (run t0 frames).2 = [])
    ∧ (∀ n : ℕ, n ≤ 10 → calibration_saves n = false) := by
  constructor
  · intro t0 frames h
    rw [run, runFrom_no_accept frames (initState t0) [] h]
  · intro n hn
    simp only [calibration_saves, decide_eq_false_iff_not]
    omega

/-- Witness for C10 amended: a run of one markerless frame accepts
nothing and logs nothing, and the calibration gate refuses 10 captures. -/
theorem no_accepted_no_log_witness :
    acceptedAux none [exFrameNoMarkers] = []
    ∧ (run 0 [exFrameNoMarkers]).2 = []
    ∧ calibration_saves 10 = false := by
  have hacc : acceptedAux none [exFrameNoMarkers] = [] := by
    rw [acceptedAux_cons_skip none exFrameNoMarkers [] (Or.inl rfl)]
    rfl
  exact ⟨hacc, no_accepted_no_log.1 0 [exFrameNoMarkers] hacc,
    no_accepted_no_log.2 10 (by norm_num)⟩

end Medir
